import Mathlib

/-!
Shallow embedding of `erpnext/hr/doctype/employee/employee_reminders.py`.

The module under verification is a batch email dispatcher: it reads HR Settings
flags, queries employee and holiday data, formats reminder texts and calls
`frappe.sendmail`.  The data stores, the settings store and the mail sender are
external collaborators (spec section 6); they appear here as explicit inputs
(environment records), while every piece of control flow, grouping, string
formatting and argument passing of the Python source is translated into
executable Lean definitions below.
-/

namespace EmployeeReminders

/-- Calendar date (year, month, day), as produced by `frappe.utils.getdate`. -/
structure Date where
  year : Int
  month : Nat
  day : Nat
deriving DecidableEq, Repr, Inhabited

/-- Employee row as returned by the birthday / work-anniversary query of
`get_employees_having_an_event_today` (`personal_email`, `company`,
`company_email`, `user_id`, `employee_name AS name`, `image`,
`date_of_joining`).  SQL NULL is encoded as the empty string, which is falsy
under Python `or` exactly like NULL/None. -/
structure Emp where
  personal_email : String
  company : String
  company_email : String
  user_id : String
  name : String
  image : String
  date_of_joining : Date
deriving DecidableEq, Repr, Inhabited

/-- Python `int(x or 1)` applied to an optional integer setting, as in
`int(frappe.db.get_single_value("HR Settings", flag) or 1)` (lines 17, 163,
228, 236).  `None` and `0` are both falsy in Python, so both produce `1`. -/
def pyOrInt1 : Option Int → Int
  | none => 1
  | some v => if v = 0 then 1 else v

/-- Python `int(x or 0)` applied to an optional integer setting, as in
`int(frappe.db.get_single_value("HR Settings", "stop_birthday_reminders") or 0)`
(line 59). -/
def pyOrInt0 : Option Int → Int
  | none => 0
  | some v => v

/-- Python `a or b` on strings, where the empty string (our encoding of NULL)
is falsy. -/
def pyOr (a b : String) : String := if a = "" then b else a

/-- Python `sep.join(xs)`. -/
def joinSep (sep : String) : List String → String
  | [] => ""
  | [x] => x
  | x :: y :: rest => x ++ sep ++ joinSep sep (y :: rest)

/-- `frappe.utils.comma_sep(some_list, pattern, add_quotes=False)` on a list of
strings: `""` for the empty list, the sole element for a singleton, otherwise
the pattern applied to the comma-join of all but the last element and the last
element. -/
def comma_sep (pat : String → String → String) (xs : List String) : String :=
  match xs with
  | [] => ""
  | [x] => x
  | x :: y :: rest =>
      pat (joinSep ", " ((x :: y :: rest).dropLast))
          ((x :: y :: rest).getLast (by simp))

/-- `frappe.utils.comma_and(some_list, add_quotes=False)`: `comma_sep` with the
localized pattern rendered as plain text join with " and ". -/
def comma_and (xs : List String) : String :=
  comma_sep (fun a b => a ++ " and " ++ b) xs

/-- The pattern `frappe._("\x7b0\x7d & \x7b1\x7d")` used by the birthday and
work-anniversary joins (lines 86 and 201). -/
def ampPat (a b : String) : String := a ++ " & " ++ b

/-- The `recipients` argument of a `frappe.sendmail` call: the group sends pass
a Python list (lines 35, 70, 175) while the personalized sends for shared
birthdays / anniversaries pass a single string (lines 78, 183). -/
inductive Recipients
  | list (rs : List String)
  | single (r : String)
deriving DecidableEq, Repr

/-- One `frappe.sendmail` call: recipients, subject, template, template
arguments and header.  `persons` holds the `birthday_persons` /
`anniversary_persons` template argument; the holiday reminder passes only
`reminder_text` and `message`, encoded as `persons = []`. -/
structure Email where
  recipients : Recipients
  subject : String
  template : String
  reminder_text : String
  message : String
  header : String
  persons : List Emp
deriving DecidableEq, Repr

/-! ## Holiday reminders (lines 13-51) -/

/-- Environment of `send_holiday_reminders`: the HR Settings flag, the
employee list of `frappe.db.get_all('Employee', pluck='name')` — note the
source applies no status filter to this query — and the external collaborators
`is_holiday(employee, only_non_weekly=True, with_description=True,
raise_exception=False)` and `get_employee_email(frappe.get_doc('Employee',
employee))`.  `status_active` records each employee's active status in the
store; the dispatcher never reads it. -/
structure HolidayEnv where
  send_holiday_reminders : Option Int
  employees : List String
  status_active : String → Bool
  is_holiday : String → Bool × List String
  get_employee_email : String → String

/-- `get_holiday_reminder_text_and_message` (lines 45-51): single description
verbatim, several descriptions joined by `comma_and`. -/
def get_holiday_reminder_text_and_message (descriptions : List String) :
    String × String :=
  let description :=
    if descriptions.length = 1 then descriptions.headI else comma_and descriptions
  ("This email is to remind you about today\x27s holiday.",
   "Holiday is on the occassion of " ++ description ++ ".")

/-- `send_holiday_reminder_to_employee` (lines 28-43). -/
def send_holiday_reminder_to_employee (env : HolidayEnv) (employee : String)
    (descriptions : List String) : Email :=
  let tm := get_holiday_reminder_text_and_message descriptions
  { recipients := .list [env.get_employee_email employee]
    subject := "Holiday Reminder"
    template := "holiday_reminder"
    reminder_text := tm.1
    message := tm.2
    header := "Today is a holiday for you."
    persons := [] }

/-- `send_holiday_reminders` (lines 13-26), returning the list of sendmail
calls of one run:  `to_send = int(flag or 1)`; return if falsy; otherwise one
email per listed employee for whom `is_holiday` reports a non-weekly holiday
today. -/
def send_holiday_reminders (env : HolidayEnv) : List Email :=
  if pyOrInt1 env.send_holiday_reminders = 0 then []
  else
    env.employees.filterMap (fun employee =>
      if (env.is_holiday employee).1 then
        some (send_holiday_reminder_to_employee env employee (env.is_holiday employee).2)
      else none)

/-! ## Birthday reminders and company grouping (lines 57-155) -/

/-- Appending one row to a `defaultdict(list)` keyed by company: the bucket of
an existing key grows at its end, a fresh key is created at the end (Python
dict preserves first-insertion order). -/
def addToGroup : List (String × List Emp) → String → Emp →
    List (String × List Emp)
  | [], k, doc => [(k, [doc])]
  | g :: rest, k, doc =>
      if g.1 = k then (g.1, g.2 ++ [doc]) :: rest
      else g :: addToGroup rest k doc

/-- The grouping loop of `get_employees_having_an_event_today` (lines
150-153): every returned row is appended to the bucket of its own `company`
field. -/
def group_by_company (docs : List Emp) : List (String × List Emp) :=
  docs.foldl (fun gs doc => addToGroup gs doc.company doc) []

/-- `get_employees_having_an_event_today` (lines 112-155).  `rows` stands for
the external database query, as a function of the selected condition column
(`date_of_birth` for birthdays, `date_of_joining` for work anniversaries);
any other event type hits the bare `return` on line 125, i.e. Python `None`. -/
def get_employees_having_an_event_today (event_type : String)
    (rows : String → List Emp) : Option (List (String × List Emp)) :=
  if event_type = "birthday" then
    some (group_by_company (rows "date_of_birth"))
  else if event_type = "work_anniversary" then
    some (group_by_company (rows "date_of_joining"))
  else none

/-- Environment of `send_birthday_reminders`: the HR Settings flag, the rows
the birthday query returns today (`born_today`), and the external collaborators
`get_all_employee_emails(company)` and `get_employee_email(doc)`. -/
structure BirthdayEnv where
  stop_birthday_reminders : Option Int
  born_today : List Emp
  get_all_employee_emails : String → List String
  get_employee_email : Emp → String

/-- `get_employees_who_are_born_today` (lines 108-110). -/
def get_employees_who_are_born_today (env : BirthdayEnv) :
    Option (List (String × List Emp)) :=
  get_employees_having_an_event_today "birthday" (fun _ => env.born_today)

/-- Python `list(set(a) - set(b))`: the set difference, as a deduplicated
list (line 67).  Python's set iteration order is arbitrary; one concrete
order is fixed here, and only the underlying set is ever asserted. -/
def list_set_diff (a b : List String) : List String :=
  a.dedup.filter (fun x => decide (x ∉ b))

/-- `get_birthday_reminder_text_and_message` (lines 80-93). -/
def get_birthday_reminder_text_and_message (birthday_persons : List Emp) :
    String × String :=
  let birthday_person_text :=
    if birthday_persons.length = 1 then birthday_persons.headI.name
    else comma_sep ampPat (birthday_persons.map (fun d => d.name))
  ("Today is " ++ birthday_person_text ++ "\x27s birthday 🎉",
   "A friendly reminder of an important date for our team." ++ "<br>" ++
     "Everyone, let’s congratulate " ++ birthday_person_text ++
     " on their birthday.")

/-- `send_birthday_reminder` (lines 95-106). -/
def send_birthday_reminder (recipients : Recipients) (reminder_text : String)
    (birthday_persons : List Emp) (message : String) : Email :=
  { recipients := recipients
    subject := "Birthday Reminder"
    template := "birthday_reminder"
    reminder_text := reminder_text
    message := message
    header := "Birthday Reminder 🎂"
    persons := birthday_persons }

/-- The one group email of a company iteration (lines 65-70): recipients are
`list(set(employee_emails) - set(birthday_person_emails))`. -/
def company_group_email (env : BirthdayEnv) (company : String)
    (birthday_persons : List Emp) : Email :=
  let employee_emails := env.get_all_employee_emails company
  let birthday_person_emails := birthday_persons.map env.get_employee_email
  let recipients := list_set_diff employee_emails birthday_person_emails
  let tm := get_birthday_reminder_text_and_message birthday_persons
  send_birthday_reminder (.list recipients) tm.1 birthday_persons tm.2

/-- The personalized email for one of several people sharing a birthday
(lines 74-78): address `user_id or personal_email or company_email`, other
celebrants `[d for d in birthday_persons if d != person]`. -/
def shared_birthday_email (birthday_persons : List Emp) (person : Emp) : Email :=
  let person_email := pyOr person.user_id (pyOr person.personal_email person.company_email)
  let others := birthday_persons.filter (fun d => decide (d ≠ person))
  let tm := get_birthday_reminder_text_and_message others
  send_birthday_reminder (.single person_email) tm.1 others tm.2

/-- One iteration of the company loop of `send_birthday_reminders` (lines
64-78): the group email, followed by the personalized emails when more than
one person shares the birthday. -/
def birthday_company_emails (env : BirthdayEnv) (company : String)
    (birthday_persons : List Emp) : List Email :=
  company_group_email env company birthday_persons ::
    (if 1 < birthday_persons.length then
      birthday_persons.map (shared_birthday_email birthday_persons)
    else [])

/-- `send_birthday_reminders` (lines 57-78), returning the sendmail calls of
one run. -/
def send_birthday_reminders (env : BirthdayEnv) : List Email :=
  if pyOrInt0 env.stop_birthday_reminders ≠ 0 then []
  else
    ((get_employees_who_are_born_today env).getD []).flatMap
      (fun g => birthday_company_emails env g.1 g.2)

/-! ## Work anniversary reminders (lines 161-221) -/

/-- `get_work_anniversary_reminder_text_and_message` (lines 185-208):
`completed_years = getdate().year - person['date_of_joining'].year`, appended
to each person's name as " completed N years"; `current` is today's date. -/
def get_work_anniversary_reminder_text_and_message (current : Date)
    (anniversary_persons : List Emp) : String × String :=
  let anniversary_person :=
    if anniversary_persons.length = 1 then
      anniversary_persons.headI.name ++ " completed " ++
        toString (current.year - anniversary_persons.headI.date_of_joining.year) ++
        " years"
    else
      comma_sep ampPat (anniversary_persons.map (fun person =>
        person.name ++ " completed " ++
          toString (current.year - person.date_of_joining.year) ++ " years"))
  ("Today " ++ anniversary_person ++ " at our Company! 🎉",
   "A friendly reminder of an important date for our team." ++ "<br>" ++
     "Everyone, let’s congratulate " ++ anniversary_person ++
     " on their work anniversary!")

/-! ## Advance holiday reminders (lines 227-269) -/

/-- Gregorian leap year. -/
def isLeap (y : Int) : Bool := (y % 4 == 0 && y % 100 != 0) || y % 400 == 0

/-- Length of a month of the Gregorian calendar. -/
def daysInMonth (y : Int) (m : Nat) : Nat :=
  if m = 2 then (if isLeap y then 29 else 28)
  else if m = 4 ∨ m = 6 ∨ m = 9 ∨ m = 11 then 30
  else 31

/-- Successor day of a calendar date. -/
def nextDay (d : Date) : Date :=
  if d.day < daysInMonth d.year d.month then ⟨d.year, d.month, d.day + 1⟩
  else if d.month < 12 then ⟨d.year, d.month + 1, 1⟩
  else ⟨d.year + 1, 1, 1⟩

/-- `frappe.utils.add_days(date, days)` for a nonnegative number of days:
plain calendar day addition. -/
def add_days (d : Date) : Nat → Date
  | 0 => d
  | n + 1 => nextDay (add_days d n)

/-- An uncaught Python `TypeError` (a function called with its required
positional arguments missing). -/
inductive PyError
  | typeError
deriving DecidableEq, Repr

/-- The search window computed by `send_advance_holiday_reminders` (lines
247-255).  Weekly: `[add_days(getdate(), 1), add_days(getdate(), 7)]`.
Monthly: the source computes `start_date = add_days(getdate())`, calling
`frappe.utils.add_days(date, days)` without its required `days` argument, so
this branch raises `TypeError` before any window exists.  Any other frequency
returns early with no window. -/
def send_advance_holiday_reminders_window (frequency : String) (today : Date) :
    Except PyError (Option (Date × Date)) :=
  if frequency = "Weekly" then
    .ok (some (add_days today 1, add_days today 7))
  else if frequency = "Monthly" then .error .typeError
  else .ok none

/-- A positional argument value passed to the holiday store. -/
inductive PyValue
  | str (s : String)
  | date (d : Date)
deriving DecidableEq, Repr

/-- Argument record of one `get_holidays_for_employee` call.  Modelled from
the spec: the holiday store interface is
`getHolidaysInRange(employeeId, start, end, onlyNonWeekly)` (spec section 6);
`erpnext.hr.utils.get_holidays_for_employee` itself is repository code not
present under `src/`.  `pos1`/`pos2`/`pos3` are the first three positional
slots of that interface; `pos3 = none` means the caller supplied no third
positional argument. -/
structure HolidayStoreCall where
  pos1 : PyValue
  pos2 : PyValue
  pos3 : Option PyValue
  only_non_weekly : Bool
  raise_exception : Bool
deriving DecidableEq, Repr

/-- The holiday-store calls issued by the employee loop of
`send_advance_holiday_reminders` (lines 257-266): for each listed employee the
source passes exactly two positional arguments — `start_date` and `end_date` —
plus the keywords `only_non_weekly=True, raise_exception=False`.  The loop
variable `employee` is never passed. -/
def send_advance_holiday_reminders_calls (frequency : String) (today : Date)
    (employees : List String) : Except PyError (List HolidayStoreCall) :=
  match send_advance_holiday_reminders_window frequency today with
  | .error e => .error e
  | .ok none => .ok []
  | .ok (some w) =>
      .ok (employees.map (fun _employee =>
        { pos1 := .date w.1
          pos2 := .date w.2
          pos3 := none
          only_non_weekly := true
          raise_exception := false }))

/-- Holiday row (description and date) as produced by the holiday store. -/
structure Holiday where
  description : String
  holiday_date : Date
deriving DecidableEq, Repr

/-- `send_holidays_reminder_in_advance` (lines 268-269): the body is `pass` —
no sendmail call, no other statement.  The returned list of sendmail calls is
therefore empty for every input. -/
def send_holidays_reminder_in_advance (_employee : String)
    (_holidays : List Holiday) : List Email := []

/-! ## Holiday reminders with failing collaborators (for the failure
semantics of the run) -/

/-- Failure raised by an external collaborator. -/
inductive RunError
  | dataStoreError (msg : String)
  | mailSendError (msg : String)
deriving DecidableEq, Repr

/-- Environment of `send_holiday_reminders` with the collaborators' real
failure modes made explicit: `frappe.get_doc` / `get_employee_email`
(`resolve_email`) and `frappe.sendmail` may raise; `is_holiday` is called with
`raise_exception=False` and reports no error.  The source contains no
`try`/`except`, so every raised error propagates out of the run. -/
structure HolidayEnvExc where
  send_holiday_reminders : Option Int
  employees : List String
  is_holiday : String → Bool × List String
  resolve_email : String → Except RunError String
  sendmail : Email → Except RunError Unit

/-- The holiday email built by `send_holiday_reminder_to_employee` once the
address is resolved. -/
def mk_holiday_email (addr : String) (descriptions : List String) : Email :=
  let tm := get_holiday_reminder_text_and_message descriptions
  { recipients := .list [addr]
    subject := "Holiday Reminder"
    template := "holiday_reminder"
    reminder_text := tm.1
    message := tm.2
    header := "Today is a holiday for you."
    persons := [] }

/-- One iteration of the employee loop of `send_holiday_reminders` (lines
23-26 and 28-43): the email sent, `none` when today is no holiday for the
employee, or the first uncaught error. -/
def process_holiday_employee (env : HolidayEnvExc) (employee : String) :
    Except RunError (Option Email) :=
  let hd := env.is_holiday employee
  if hd.1 then do
    let addr ← env.resolve_email employee
    let m := mk_holiday_email addr hd.2
    env.sendmail m
    pure (some m)
  else pure none

/-- The employee loop of `send_holiday_reminders` under failing
collaborators: emails sent so far are lost when an iteration raises, because
nothing catches the error. -/
def holiday_loop (env : HolidayEnvExc) : List String → Except RunError (List Email)
  | [] => .ok []
  | e :: rest => do
      let sent ← process_holiday_employee env e
      let ms ← holiday_loop env rest
      pure (sent.toList ++ ms)

/-- `send_holiday_reminders` with failing collaborators: the sendmail calls of
the whole run, or the first uncaught exception. -/
def send_holiday_reminders_exc (env : HolidayEnvExc) :
    Except RunError (List Email) :=
  if pyOrInt1 env.send_holiday_reminders = 0 then .ok []
  else holiday_loop env env.employees

/-- Environment of `send_birthday_reminders` with the collaborators' real
failure modes made explicit: `get_all_employee_emails` (a data-store query),
`get_employee_email` and `frappe.sendmail` may raise.  The source contains no
`try`/`except`, so every raised error propagates. -/
structure BirthdayEnvExc where
  stop_birthday_reminders : Option Int
  born_today : List Emp
  get_all_employee_emails : String → Except RunError (List String)
  get_employee_email : Emp → Except RunError String
  sendmail : Email → Except RunError Unit

/-- One iteration of the company loop of `send_birthday_reminders` (lines
64-78) under failing collaborators: the company email query, the honoree
email comprehension, the group send, and — when several people share the
birthday — the personalized sends; the first uncaught error aborts the
iteration. -/
def process_birthday_company (env : BirthdayEnvExc) (company : String)
    (birthday_persons : List Emp) : Except RunError (List Email) := do
  let employee_emails ← env.get_all_employee_emails company
  let birthday_person_emails ← birthday_persons.mapM env.get_employee_email
  let recipients := list_set_diff employee_emails birthday_person_emails
  let tm := get_birthday_reminder_text_and_message birthday_persons
  let group := send_birthday_reminder (.list recipients) tm.1 birthday_persons tm.2
  env.sendmail group
  if 1 < birthday_persons.length then do
    let specials ← birthday_persons.mapM (fun person => do
      let m := shared_birthday_email birthday_persons person
      env.sendmail m
      pure m)
    pure (group :: specials)
  else
    pure [group]

/-- The company loop of `send_birthday_reminders` under failing
collaborators: nothing catches an error, so the first failing company aborts
the whole loop. -/
def birthday_loop (env : BirthdayEnvExc) :
    List (String × List Emp) → Except RunError (List Email)
  | [] => .ok []
  | g :: rest => do
      let sent ← process_birthday_company env g.1 g.2
      let ms ← birthday_loop env rest
      pure (sent ++ ms)

/-- `send_birthday_reminders` with failing collaborators: the sendmail calls
of the whole run, or the first uncaught exception. -/
def send_birthday_reminders_exc (env : BirthdayEnvExc) :
    Except RunError (List Email) :=
  if pyOrInt0 env.stop_birthday_reminders ≠ 0 then .ok []
  else birthday_loop env (group_by_company env.born_today)

/-- Containment of one string in another, via explicit context. -/
def strContains (h n : String) : Prop := ∃ l r, h = l ++ n ++ r

/-- Well-formedness of a company grouping: keys are distinct, every record
sits under its own company key, and no bucket is empty. -/
def GroupsWF (gs : List (String × List Emp)) : Prop :=
  (gs.map Prod.fst).Nodup ∧ (∀ p ∈ gs, ∀ r ∈ p.2, r.company = p.1) ∧
    (∀ p ∈ gs, p.2 ≠ [])

/-! ## Concrete environments used as evaluation inputs -/

/-- Holiday environment with the holiday flag explicitly set to 0 and one
employee with a non-weekly holiday today. -/
def envC1 : HolidayEnv :=
  { send_holiday_reminders := some 0
    employees := ["E1"]
    status_active := fun _ => true
    is_holiday := fun _ => (true, ["Diwali"])
    get_employee_email := fun e => e }

/-- Holiday environment with the flag enabled: E1 has a holiday, E2 has not. -/
def envC2 : HolidayEnv :=
  { send_holiday_reminders := some 1
    employees := ["E1", "E2"]
    status_active := fun _ => true
    is_holiday := fun e => if e = "E1" then (true, ["Diwali"]) else (false, [])
    get_employee_email := fun e => e }

/-- Sample employee record. -/
def alice : Emp :=
  { personal_email := "alice@p", company := "C1", company_email := "alice@c"
    user_id := "alice@u", name := "Alice", image := ""
    date_of_joining := ⟨2019, 1, 1⟩ }

/-- Sample employee record with empty user and personal addresses. -/
def bob : Emp :=
  { personal_email := "", company := "C1", company_email := "bob@c"
    user_id := "", name := "Bob", image := ""
    date_of_joining := ⟨2020, 2, 2⟩ }

/-- Sample employee record in another company. -/
def carol : Emp :=
  { personal_email := "carol@p", company := "C2", company_email := "carol@c"
    user_id := "", name := "Carol", image := ""
    date_of_joining := ⟨2021, 3, 3⟩ }

/-- Birthday environment: Alice and Bob of company C1 share today's birthday. -/
def envC3 : BirthdayEnv :=
  { stop_birthday_reminders := none
    born_today := [alice, bob]
    get_all_employee_emails := fun _ => ["alice@u", "bob@c", "carol@c", "carol@c"]
    get_employee_email := fun d => pyOr d.user_id (pyOr d.personal_email d.company_email) }

/-- Sample anniversary person: joined in 2019. -/
def jim : Emp :=
  { personal_email := "", company := "C1", company_email := "jim@c"
    user_id := "", name := "Jim", image := ""
    date_of_joining := ⟨2019, 5, 1⟩ }

/-- Reference date 2024-01-15. -/
def refDate : Date := ⟨2024, 1, 15⟩

/-- Database rows used to evaluate the grouping. -/
def rowsW : String → List Emp := fun _ => [alice, bob, carol]

/-- The single holiday-store call the advance loop issues for one employee of
the weekly run started on 2024-01-15. -/
def callW : HolidayStoreCall :=
  { pos1 := .date ⟨2024, 1, 16⟩
    pos2 := .date ⟨2024, 1, 22⟩
    pos3 := none
    only_non_weekly := true
    raise_exception := false }

/-- Holiday environment with failing collaborators: resolving E1's address
raises a data-store error while E2 is perfectly sendable. -/
def envC8 : HolidayEnvExc :=
  { send_holiday_reminders := some 1
    employees := ["E1", "E2"]
    is_holiday := fun _ => (true, ["Diwali"])
    resolve_email := fun e =>
      if e = "E1" then Except.error (RunError.dataStoreError "Employee E1 not found")
      else Except.ok (e ++ "@x")
    sendmail := fun _ => Except.ok () }

/-- Birthday environment with failing collaborators: Alice (company C1) and
Carol (company C2) have birthdays today, and the employee-email query for C1
raises a data-store error while C2 is perfectly sendable. -/
def benvC8 : BirthdayEnvExc :=
  { stop_birthday_reminders := none
    born_today := [alice, carol]
    get_all_employee_emails := fun c =>
      if c = "C1" then Except.error (RunError.dataStoreError "company C1 lookup failed")
      else Except.ok ["x@c"]
    get_employee_email := fun d => Except.ok d.company_email
    sendmail := fun _ => Except.ok () }

/-! ## General helper lemmas -/

theorem filterMap_eq_nil_of_none {α β : Type} (l : List α) (f : α → Option β)
    (h : ∀ x ∈ l, f x = none) : l.filterMap f = [] := by
  induction l with
  | nil => rfl
  | cons a tl ih =>
      simp only [List.filterMap_cons, h a (by simp)]
      exact ih (fun x hx => h x (by simp [hx]))

theorem filterMap_eq_singleton_of_unique {α β : Type} [DecidableEq α]
    (l : List α) (f : α → Option β) (a : α) (b : β)
    (hcount : l.count a = 1) (hfa : f a = some b)
    (hother : ∀ x ∈ l, x ≠ a → f x = none) :
    l.filterMap f = [b] := by
  induction l with
  | nil => simp at hcount
  | cons hd tl ih =>
      by_cases h : hd = a
      · subst h
        have h0 : tl.count hd = 0 := by
          rw [List.count_cons_self] at hcount
          omega
        have hnotin : hd ∉ tl := List.count_eq_zero.mp h0
        have hnil : tl.filterMap f = [] :=
          filterMap_eq_nil_of_none tl f (fun x hx =>
            hother x (by simp [hx]) (fun hxa => hnotin (hxa ▸ hx)))
        simp [List.filterMap_cons, hfa, hnil]
      · have hnone : f hd = none := hother hd (by simp) h
        have hc : tl.count a = 1 := by
          rw [List.count_cons] at hcount
          simp only [beq_iff_eq] at hcount
          rw [if_neg h] at hcount
          omega
        simp only [List.filterMap_cons, hnone]
        exact ih hc (fun x hx hxa => hother x (by simp [hx]) hxa)

theorem flatMap_eq_nil_of_forall {α β : Type} (l : List α) (f : α → List β)
    (h : ∀ x ∈ l, f x = []) : l.flatMap f = [] := by
  induction l with
  | nil => rfl
  | cons a tl ih =>
      simp only [List.flatMap_cons, h a (by simp), List.nil_append]
      exact ih (fun x hx => h x (by simp [hx]))

theorem flatMap_eq_singleton_of_unique {α β : Type} [DecidableEq α]
    (l : List α) (f : α → List β) (a : α) (b : β)
    (hcount : l.count a = 1) (hfa : f a = [b])
    (hother : ∀ x ∈ l, x ≠ a → f x = []) :
    l.flatMap f = [b] := by
  induction l with
  | nil => simp at hcount
  | cons hd tl ih =>
      by_cases h : hd = a
      · subst h
        have h0 : tl.count hd = 0 := by
          rw [List.count_cons_self] at hcount
          omega
        have hnotin : hd ∉ tl := List.count_eq_zero.mp h0
        have hnil : tl.flatMap f = [] :=
          flatMap_eq_nil_of_forall tl f (fun x hx =>
            hother x (by simp [hx]) (fun hxa => hnotin (hxa ▸ hx)))
        simp [List.flatMap_cons, hfa, hnil]
      · have hnil : f hd = [] := hother hd (by simp) h
        have hc : tl.count a = 1 := by
          rw [List.count_cons] at hcount
          simp only [beq_iff_eq] at hcount
          rw [if_neg h] at hcount
          omega
        simp only [List.flatMap_cons, hnil, List.nil_append]
        exact ih hc (fun x hx hxa => hother x (by simp [hx]) hxa)

theorem filter_flatMap {α β : Type} (l : List α) (f : α → List β) (p : β → Bool) :
    (l.flatMap f).filter p = l.flatMap (fun a => (f a).filter p) := by
  induction l with
  | nil => rfl
  | cons a tl ih => simp [List.flatMap_cons, List.filter_append, ih]

theorem filter_filterMap {α β : Type} (l : List α) (f : α → Option β) (p : β → Bool) :
    (l.filterMap f).filter p = l.filterMap (fun a =>
      match f a with
      | some b => if p b then some b else none
      | none => none) := by
  induction l with
  | nil => rfl
  | cons a tl ih =>
      cases hfa : f a with
      | none => simp [List.filterMap_cons, hfa, ih]
      | some b => by_cases hp : p b <;> simp [List.filterMap_cons, hfa, hp, ih]

theorem filter_eq_singleton_of_nodup {α : Type} (l : List α) (p : α → Bool) (a : α)
    (hnd : l.Nodup) (ha : a ∈ l) (hpa : p a = true)
    (huniq : ∀ x ∈ l, p x = true → x = a) :
    l.filter p = [a] := by
  induction l with
  | nil => simp at ha
  | cons hd tl ih =>
      rw [List.nodup_cons] at hnd
      rcases List.mem_cons.mp ha with h | h
      · subst h
        rw [List.filter_cons_of_pos hpa]
        have : tl.filter p = [] := by
          rw [List.filter_eq_nil_iff]
          intro x hx hpx
          exact hnd.1 ((huniq x (by simp [hx]) (by simpa using hpx)) ▸ hx)
        rw [this]
      · have hhd : ¬ p hd = true := by
          intro hp
          exact hnd.1 ((huniq hd (by simp) hp) ▸ h)
        rw [List.filter_cons_of_neg (by simpa using hhd)]
        exact ih hnd.2 h (fun x hx hpx => huniq x (by simp [hx]) hpx)

theorem exists_other_of_nodup {α : Type} {l : List α} {a : α} (hnd : l.Nodup)
    (hlen : 1 < l.length) (ha : a ∈ l) : ∃ x ∈ l, x ≠ a := by
  match l, hnd, hlen with
  | x :: y :: tl, hnd, _ =>
      rw [List.nodup_cons] at hnd
      by_cases hx : x = a
      · subst hx
        refine ⟨y, by simp, fun he => ?_⟩
        exact hnd.1 (by rw [← he]; exact List.mem_cons_self y tl)
      · exact ⟨x, by simp, hx⟩

theorem filter_ne_self {α : Type} [DecidableEq α] {l : List α} {a : α} (ha : a ∈ l) :
    l.filter (fun d => decide (d ≠ a)) ≠ l := by
  intro h
  have hmem : a ∈ l.filter (fun d => decide (d ≠ a)) := by rw [h]; exact ha
  have := (List.mem_filter.mp hmem).2
  simp at this

/-! ## String containment helpers -/

theorem strContains_self (s : String) : strContains s s :=
  ⟨"", "", by rw [String.empty_append, String.append_empty]⟩

theorem strContains_append_right {a n : String} (b : String) (h : strContains a n) :
    strContains (a ++ b) n := by
  obtain ⟨l, r, rfl⟩ := h
  exact ⟨l, r ++ b, String.append_assoc (l ++ n) r b⟩

theorem strContains_append_left {b n : String} (a : String) (h : strContains b n) :
    strContains (a ++ b) n := by
  obtain ⟨l, r, rfl⟩ := h
  exact ⟨a ++ l, r, by simp [String.append_assoc]⟩

theorem joinSep_contains {xs : List String} {x : String} (sep : String) (hx : x ∈ xs) :
    strContains (joinSep sep xs) x := by
  induction xs with
  | nil => simp at hx
  | cons a tl ih =>
      cases tl with
      | nil =>
          have hxa : x = a := by simpa using hx
          subst hxa
          exact strContains_self x
      | cons b tl2 =>
          rcases List.mem_cons.mp hx with h | h
          · subst h
            exact strContains_append_right _ (strContains_append_right sep (strContains_self x))
          · exact strContains_append_left _ (ih h)

theorem comma_sep_amp_contains {xs : List String} {x : String} (hx : x ∈ xs) :
    strContains (comma_sep ampPat xs) x := by
  match xs, hx with
  | [a], hx =>
      have hxa : x = a := by simpa using hx
      subst hxa
      exact strContains_self x
  | a :: b :: tl, hx =>
      have hne : (a :: b :: tl) ≠ [] := by simp
      have hx' : x ∈ (a :: b :: tl).dropLast ++ [(a :: b :: tl).getLast hne] := by
        rw [List.dropLast_append_getLast hne]
        exact hx
      rcases List.mem_append.mp hx' with h | h
      · exact strContains_append_right _
          (strContains_append_right " & " (joinSep_contains ", " h))
      · have hxl : x = (a :: b :: tl).getLast hne := by simpa using h
        rw [hxl]
        exact strContains_append_left _ (strContains_self _)

/-! ## Grouping invariants -/

theorem mem_addToGroup_fst (gs : List (String × List Emp)) (k : String) (doc : Emp)
    (x : String) :
    x ∈ (addToGroup gs k doc).map Prod.fst ↔ x ∈ gs.map Prod.fst ∨ x = k := by
  induction gs with
  | nil => simp [addToGroup]
  | cons g tl ih =>
      by_cases h : g.1 = k
      · have hred : addToGroup (g :: tl) k doc = (k, g.2 ++ [doc]) :: tl := by
          simp [addToGroup, h]
        rw [hred, List.map_cons, List.mem_cons, List.map_cons, List.mem_cons, h]
        tauto
      · have hred : addToGroup (g :: tl) k doc = g :: addToGroup tl k doc := by
          simp [addToGroup, h]
        rw [hred, List.map_cons, List.mem_cons, List.map_cons, List.mem_cons, ih]
        tauto

theorem addToGroup_fst_nodup (gs : List (String × List Emp)) (k : String) (doc : Emp)
    (h : (gs.map Prod.fst).Nodup) : ((addToGroup gs k doc).map Prod.fst).Nodup := by
  induction gs with
  | nil => simp [addToGroup]
  | cons g tl ih =>
      rw [List.map_cons, List.nodup_cons] at h
      by_cases hk : g.1 = k
      · subst hk
        have hred : (addToGroup (g :: tl) g.1 doc).map Prod.fst
            = g.1 :: tl.map Prod.fst := by
          simp [addToGroup]
        rw [hred, List.nodup_cons]
        exact ⟨h.1, h.2⟩
      · have hred : addToGroup (g :: tl) k doc = g :: addToGroup tl k doc := by
          simp [addToGroup, hk]
        rw [hred, List.map_cons, List.nodup_cons]
        refine ⟨fun hmem => ?_, ih h.2⟩
        rcases (mem_addToGroup_fst tl k doc g.1).mp hmem with hm | hm
        · exact h.1 hm
        · exact hk hm

theorem addToGroup_company (gs : List (String × List Emp)) (k : String) (doc : Emp)
    (h : ∀ p ∈ gs, ∀ r ∈ p.2, r.company = p.1) (hdoc : doc.company = k) :
    ∀ p ∈ addToGroup gs k doc, ∀ r ∈ p.2, r.company = p.1 := by
  induction gs with
  | nil =>
      intro p hp r hr
      have hp' : p = (k, [doc]) := by simpa [addToGroup] using hp
      subst hp'
      have : r = doc := by simpa using hr
      subst this
      exact hdoc
  | cons g tl ih =>
      intro p hp r hr
      by_cases hk : g.1 = k
      · rw [show addToGroup (g :: tl) k doc = (g.1, g.2 ++ [doc]) :: tl from by
          simp [addToGroup, hk]] at hp
        rcases List.mem_cons.mp hp with he | he
        · subst he
          rcases List.mem_append.mp hr with hrg | hrd
          · exact h g (by simp) r hrg
          · have : r = doc := by simpa using hrd
            subst this
            rw [hdoc, hk]
        · exact h p (by simp [he]) r hr
      · rw [show addToGroup (g :: tl) k doc = g :: addToGroup tl k doc from by
          simp [addToGroup, hk]] at hp
        rcases List.mem_cons.mp hp with he | he
        · subst he
          exact h p (by simp) r hr
        · exact ih (fun q hq => h q (by simp [hq])) p he r hr

theorem addToGroup_nonempty (gs : List (String × List Emp)) (k : String) (doc : Emp)
    (h : ∀ p ∈ gs, p.2 ≠ []) : ∀ p ∈ addToGroup gs k doc, p.2 ≠ [] := by
  induction gs with
  | nil =>
      intro p hp
      have hp' : p = (k, [doc]) := by simpa [addToGroup] using hp
      subst hp'
      simp
  | cons g tl ih =>
      intro p hp
      by_cases hk : g.1 = k
      · rw [show addToGroup (g :: tl) k doc = (g.1, g.2 ++ [doc]) :: tl from by
          simp [addToGroup, hk]] at hp
        rcases List.mem_cons.mp hp with he | he
        · subst he
          simp
        · exact h p (by simp [he])
      · rw [show addToGroup (g :: tl) k doc = g :: addToGroup tl k doc from by
          simp [addToGroup, hk]] at hp
        rcases List.mem_cons.mp hp with he | he
        · subst he
          exact h p (by simp)
        · exact ih (fun q hq => h q (by simp [hq])) p he

theorem groupFold_wf (docs : List Emp) (init : List (String × List Emp))
    (h : GroupsWF init) :
    GroupsWF (docs.foldl (fun gs doc => addToGroup gs doc.company doc) init) := by
  induction docs generalizing init with
  | nil => exact h
  | cons d tl ih =>
      rw [List.foldl_cons]
      exact ih _ ⟨addToGroup_fst_nodup _ _ _ h.1,
        addToGroup_company _ _ _ h.2.1 rfl,
        addToGroup_nonempty _ _ _ h.2.2⟩

theorem group_by_company_wf (docs : List Emp) : GroupsWF (group_by_company docs) :=
  groupFold_wf docs [] ⟨by simp, by simp, by simp⟩

theorem groups_fst_inj {gs : List (String × List Emp)} (h : GroupsWF gs) :
    ∀ p ∈ gs, ∀ q ∈ gs, p.1 = q.1 → p = q :=
  fun _ hp _ hq he => List.inj_on_of_nodup_map h.1 hp hq he

theorem groups_snd_inj {gs : List (String × List Emp)} (h : GroupsWF gs) :
    ∀ p ∈ gs, ∀ q ∈ gs, p.2 = q.2 → p = q := by
  intro p hp q hq he
  obtain ⟨r, hr⟩ := List.exists_mem_of_ne_nil _ (h.2.2 p hp)
  have h1 : r.company = p.1 := h.2.1 p hp r hr
  have h2 : r.company = q.1 := h.2.1 q hq r (by rw [← he]; exact hr)
  exact groups_fst_inj h p hp q hq (by rw [← h1, h2])

/-! ## Claim theorems -/

/-- Claim C1 (code evaluated at the failing input): with the
`send_holiday_reminders` flag stored as 0 — i.e. the checkbox explicitly
unchecked — and one employee with a non-weekly holiday today, the run still
sends that employee's holiday email, because `int(0 or 1)` is `1` in Python.
The flag value 0 therefore does not disable the holiday reminders. -/
theorem send_holiday_reminders_flag_zero_still_sends :
    envC1.send_holiday_reminders = some 0 ∧
    send_holiday_reminders envC1
      = [send_holiday_reminder_to_employee envC1 "E1" ["Diwali"]] :=
  ⟨rfl, rfl⟩

/-- Claim C5: in every work-anniversary message, each person's entry reads
"name completed N years" with N = current year − joining year. -/
theorem work_anniversary_years_completed (current : Date) (persons : List Emp)
    (p : Emp) (hp : p ∈ persons) :
    strContains (get_work_anniversary_reminder_text_and_message current persons).1
      (p.name ++ " completed " ++
        toString (current.year - p.date_of_joining.year) ++ " years") := by
  by_cases hlen : persons.length = 1
  · obtain ⟨q, rfl⟩ := List.length_eq_one.mp hlen
    have hpq : p = q := by simpa using hp
    subst hpq
    have hred : (get_work_anniversary_reminder_text_and_message current [p]).1
        = "Today " ++ (p.name ++ " completed " ++
            toString (current.year - p.date_of_joining.year) ++ " years") ++
          " at our Company! 🎉" := by
      simp [get_work_anniversary_reminder_text_and_message]
    rw [hred]
    exact strContains_append_right _ (strContains_append_left _ (strContains_self _))
  · have hred : (get_work_anniversary_reminder_text_and_message current persons).1
        = "Today " ++ comma_sep ampPat (persons.map (fun person =>
            person.name ++ " completed " ++
              toString (current.year - person.date_of_joining.year) ++ " years")) ++
          " at our Company! 🎉" := by
      simp [get_work_anniversary_reminder_text_and_message, hlen]
    rw [hred]
    refine strContains_append_right _ (strContains_append_left _ ?_)
    exact comma_sep_amp_contains (List.mem_map_of_mem _ hp)

/-- Witness for C5 at the spec's reference scenario: Jim joined in 2019 and
the current year is 2024, so the message contains "Jim completed 5 years". -/
theorem work_anniversary_years_completed_witness :
    strContains (get_work_anniversary_reminder_text_and_message refDate [jim]).1
      (jim.name ++ " completed " ++
        toString (refDate.year - jim.date_of_joining.year) ++ " years") ∧
    jim.name ++ " completed " ++
        toString (refDate.year - jim.date_of_joining.year) ++ " years"
      = "Jim completed 5 years" :=
  ⟨work_anniversary_years_completed refDate [jim] jim (by simp), by decide⟩

/-- Claim C6 (code evaluated at the failing input): the weekly window is
`[today+1 day, today+7 days]` — at the reference date 2024-01-15 it is
`[2024-01-16, 2024-01-22]` — but the Monthly branch raises `TypeError`
(`add_days(getdate())` is missing the required `days` argument) instead of
producing the claimed `[today, today+1 month]` window. -/
theorem advance_window_weekly_ok_monthly_raises :
    (∀ today : Date, send_advance_holiday_reminders_window "Weekly" today
        = Except.ok (some (add_days today 1, add_days today 7))) ∧
    send_advance_holiday_reminders_window "Weekly" refDate
        = Except.ok (some (⟨2024, 1, 16⟩, ⟨2024, 1, 22⟩)) ∧
    (∀ today : Date, send_advance_holiday_reminders_window "Monthly" today
        = Except.error PyError.typeError) := by
  refine ⟨fun today => ?_, rfl, fun today => ?_⟩
  · simp [send_advance_holiday_reminders_window]
  · simp [send_advance_holiday_reminders_window]

/-- Claim C7 (code evaluated at the failing input): the holiday-store call
issued while processing employee "EMP-0001" in a weekly run starting
2024-01-15 carries the window start date — not the employee — in the store's
first (employee) parameter slot, and supplies no third positional argument;
moreover the issued call does not depend on which employee is processed. -/
theorem advance_holiday_call_omits_employee :
    send_advance_holiday_reminders_calls "Weekly" refDate ["EMP-0001"]
        = Except.ok [callW] ∧
    callW.pos1 = PyValue.date ⟨2024, 1, 16⟩ ∧
    callW.pos1 ≠ PyValue.str "EMP-0001" ∧ callW.pos3 = none ∧
    (∀ today : Date, ∀ e₁ e₂ : String,
        send_advance_holiday_reminders_calls "Weekly" today [e₁]
          = send_advance_holiday_reminders_calls "Weekly" today [e₂]) :=
  ⟨rfl, rfl, by decide, rfl, fun _ _ _ => rfl⟩

/-- Claim C9: `send_holidays_reminder_in_advance` is a no-op — its body is
`pass`, so it sends no email for any employee and any list of holidays. -/
theorem send_holidays_reminder_in_advance_noop :
    ∀ (employee : String) (holidays : List Holiday),
      send_holidays_reminder_in_advance employee holidays = [] :=
  fun _ _ => rfl

/-- Claim C8 (counterexample): the data-store error raised while resolving
E1's address crashes the whole holiday run — the dispatch returns the error
and E2, who also has a holiday today, is never emailed — and the data-store
error raised while querying company C1's employee emails crashes the whole
birthday run, so company C2's birthday group is never emailed.  Both
contradict the claim that a failure aborts and logs only the affected
employee's or company's send attempt while the run continues. -/
theorem holiday_run_crashes_counterexample :
    send_holiday_reminders_exc envC8
        = Except.error (RunError.dataStoreError "Employee E1 not found") ∧
    (envC8.is_holiday "E2").1 = true ∧ envC8.employees = ["E1", "E2"] ∧
    send_birthday_reminders_exc benvC8
        = Except.error (RunError.dataStoreError "company C1 lookup failed") ∧
    group_by_company benvC8.born_today = [("C1", [alice]), ("C2", [carol])] :=
  ⟨rfl, rfl, rfl, rfl, rfl⟩

theorem holiday_run_aborts_on_first_error (env : HolidayEnvExc) (err : RunError)
    (pre : List String) (e : String) (rest : List String)
    (hemp : env.employees = pre ++ e :: rest)
    (henb : ¬ pyOrInt1 env.send_holiday_reminders = 0)
    (hpre : ∀ x ∈ pre, ∃ o, process_holiday_employee env x = Except.ok o)
    (herr : process_holiday_employee env e = Except.error err) :
    send_holiday_reminders_exc env = Except.error err := by
  have hloop : ∀ l : List String,
      (∀ x ∈ l, ∃ o, process_holiday_employee env x = Except.ok o) →
      holiday_loop env (l ++ e :: rest) = Except.error err := by
    intro l
    induction l with
    | nil =>
        intro _
        rw [List.nil_append]
        simp only [holiday_loop, herr]
        rfl
    | cons hd tl ih =>
        intro hp
        obtain ⟨o, ho⟩ := hp hd (by simp)
        have htl := ih (fun x hx => hp x (by simp [hx]))
        rw [List.cons_append]
        simp only [holiday_loop, ho, htl]
        rfl
  rw [send_holiday_reminders_exc, if_neg henb, hemp]
  exact hloop pre hpre

theorem birthday_run_aborts_on_first_error (env : BirthdayEnvExc) (berr : RunError)
    (bpre : List (String × List Emp)) (g : String × List Emp)
    (brest : List (String × List Emp))
    (hgroups : group_by_company env.born_today = bpre ++ g :: brest)
    (hbenb : pyOrInt0 env.stop_birthday_reminders = 0)
    (hbpre : ∀ q ∈ bpre, ∃ o, process_birthday_company env q.1 q.2 = Except.ok o)
    (hberr : process_birthday_company env g.1 g.2 = Except.error berr) :
    send_birthday_reminders_exc env = Except.error berr := by
  have hloop : ∀ l : List (String × List Emp),
      (∀ q ∈ l, ∃ o, process_birthday_company env q.1 q.2 = Except.ok o) →
      birthday_loop env (l ++ g :: brest) = Except.error berr := by
    intro l
    induction l with
    | nil =>
        intro _
        rw [List.nil_append]
        simp only [birthday_loop, hberr]
        rfl
    | cons hd tl ih =>
        intro hp
        obtain ⟨o, ho⟩ := hp hd (by simp)
        have htl := ih (fun x hx => hp x (by simp [hx]))
        rw [List.cons_append]
        simp only [birthday_loop, ho, htl]
        rfl
  rw [send_birthday_reminders_exc, if_neg (by simp [hbenb]), hgroups]
  exact hloop bpre hbpre

/-- Claim C8 (amended): failures are not isolated and nothing is logged, at
the employee level and at the company level alike, because the source has no
`try`/`except`.  In the holiday dispatcher, when the employees before `e`
process cleanly and `e`'s processing raises, the run returns that error and
the employees after `e` are never processed.  In the birthday dispatcher,
when the company groups before `g` process cleanly and `g`'s processing
raises — a failing company email query, honoree address resolution or send —
the run returns that error and the companies after `g` are never processed. -/
theorem run_aborts_on_first_error (henv : HolidayEnvExc) (benv : BirthdayEnvExc)
    (err berr : RunError)
    (pre : List String) (e : String) (rest : List String)
    (hemp : henv.employees = pre ++ e :: rest)
    (henb : ¬ pyOrInt1 henv.send_holiday_reminders = 0)
    (hpre : ∀ x ∈ pre, ∃ o, process_holiday_employee henv x = Except.ok o)
    (herr : process_holiday_employee henv e = Except.error err)
    (bpre : List (String × List Emp)) (g : String × List Emp)
    (brest : List (String × List Emp))
    (hgroups : group_by_company benv.born_today = bpre ++ g :: brest)
    (hbenb : pyOrInt0 benv.stop_birthday_reminders = 0)
    (hbpre : ∀ q ∈ bpre, ∃ o, process_birthday_company benv q.1 q.2 = Except.ok o)
    (hberr : process_birthday_company benv g.1 g.2 = Except.error berr) :
    send_holiday_reminders_exc henv = Except.error err ∧
    send_birthday_reminders_exc benv = Except.error berr :=
  ⟨holiday_run_aborts_on_first_error henv err pre e rest hemp henb hpre herr,
   birthday_run_aborts_on_first_error benv berr bpre g brest hgroups hbenb hbpre hberr⟩

/-- Witness for the amended C8: in `envC8` the whole holiday run returns
E1's data-store error, and in `benvC8` the whole birthday run returns the
error of the first company's email query. -/
theorem run_aborts_on_first_error_witness :
    send_holiday_reminders_exc envC8
        = Except.error (RunError.dataStoreError "Employee E1 not found") ∧
    send_birthday_reminders_exc benvC8
        = Except.error (RunError.dataStoreError "company C1 lookup failed") :=
  run_aborts_on_first_error envC8 benvC8 _ _ [] "E1" ["E2"] rfl (by decide)
    (by simp) rfl [] ("C1", [alice]) [("C2", [carol])] rfl rfl (by simp) rfl

/-- Claim C2: with the holiday flag enabled, every employee (in particular
every active one) for whom today is a non-weekly holiday gets exactly one
holiday email — the unique sendmail call addressed to their resolved email —
whose message carries the single description verbatim when there is one and
the `comma_and` join of all descriptions when there are several; an employee
without a non-weekly holiday today receives no holiday email.  The uniqueness
hypotheses say that `e` is listed once and that no other listed employee
resolves to `e`'s address. -/
theorem holiday_reminder_per_employee (env : HolidayEnv)
    (hflag : env.send_holiday_reminders = some 1)
    (e : String) (he : e ∈ env.employees)
    (hactive : env.status_active e = true)
    (hcount : env.employees.count e = 1)
    (hinj : ∀ x ∈ env.employees,
      env.get_employee_email x = env.get_employee_email e → x = e) :
    ((env.is_holiday e).1 = true →
      (send_holiday_reminders env).filter
          (fun m => decide (m.recipients = Recipients.list [env.get_employee_email e]))
        = [send_holiday_reminder_to_employee env e (env.is_holiday e).2] ∧
      ((env.is_holiday e).2.length = 1 →
        (send_holiday_reminder_to_employee env e (env.is_holiday e).2).message
          = "Holiday is on the occassion of " ++ (env.is_holiday e).2.headI ++ ".") ∧
      ((env.is_holiday e).2.length ≠ 1 →
        (send_holiday_reminder_to_employee env e (env.is_holiday e).2).message
          = "Holiday is on the occassion of " ++ comma_and (env.is_holiday e).2 ++ ".")) ∧
    ((env.is_holiday e).1 = false →
      ∀ m ∈ send_holiday_reminders env,
        m.recipients ≠ Recipients.list [env.get_employee_email e]) := by
  have hne : ¬ pyOrInt1 env.send_holiday_reminders = 0 := by
    rw [hflag]; decide
  refine ⟨fun hhol => ⟨?_, fun hlen => ?_, fun hlen => ?_⟩, fun hfalse => ?_⟩
  · rw [send_holiday_reminders, if_neg hne, filter_filterMap]
    refine filterMap_eq_singleton_of_unique env.employees _ e _ hcount ?_ ?_
    · simp [hhol, send_holiday_reminder_to_employee]
    · intro x hx hxe
      by_cases hhx : (env.is_holiday x).1 = true
      · simp only [hhx, if_true, send_holiday_reminder_to_employee]
        simp only [Recipients.list.injEq, List.cons.injEq, and_true, decide_eq_true_eq]
        rw [if_neg (fun h2 => hxe (hinj x hx h2))]
      · simp [hhx]
  · simp [send_holiday_reminder_to_employee, get_holiday_reminder_text_and_message, hlen]
  · simp [send_holiday_reminder_to_employee, get_holiday_reminder_text_and_message, hlen]
  · intro m hm hcontra
    rw [send_holiday_reminders, if_neg hne] at hm
    obtain ⟨x, hx, hfx⟩ := List.mem_filterMap.mp hm
    by_cases hhx : (env.is_holiday x).1 = true
    · rw [if_pos hhx] at hfx
      have hm2 : m = send_holiday_reminder_to_employee env x (env.is_holiday x).2 :=
        (Option.some.inj hfx).symm
      subst hm2
      have hx2 : env.get_employee_email x = env.get_employee_email e := by
        simpa [send_holiday_reminder_to_employee] using hcontra
      have hxe := hinj x hx hx2
      subst hxe
      rw [hfalse] at hhx
      exact Bool.false_ne_true hhx
    · rw [if_neg hhx] at hfx
      exact Option.noConfusion hfx

/-- Witness for C2 at a concrete environment: E1 (with a holiday) gets the
unique email at their address; E2 (without a holiday) receives none. -/
theorem holiday_reminder_per_employee_witness :
    envC2.send_holiday_reminders = some 1 ∧
    (send_holiday_reminders envC2).filter
        (fun m => decide (m.recipients = Recipients.list [envC2.get_employee_email "E1"]))
      = [send_holiday_reminder_to_employee envC2 "E1" (envC2.is_holiday "E1").2] ∧
    (∀ m ∈ send_holiday_reminders envC2,
      m.recipients ≠ Recipients.list [envC2.get_employee_email "E2"]) := by
  refine ⟨rfl, ?_, ?_⟩
  · exact ((holiday_reminder_per_employee envC2 rfl "E1" (by decide) rfl (by decide)
      (fun x _ h => h)).1 rfl).1
  · exact (holiday_reminder_per_employee envC2 rfl "E2" (by decide) rfl (by decide)
      (fun x _ h => h)).2 rfl

theorem send_birthday_reminders_run (env : BirthdayEnv)
    (hflag : pyOrInt0 env.stop_birthday_reminders = 0) :
    send_birthday_reminders env
      = (group_by_company env.born_today).flatMap
          (fun g => birthday_company_emails env g.1 g.2) := by
  rw [send_birthday_reminders, if_neg (by simp [hflag])]
  rfl

/-- Claim C3: in a birthday run with reminders not stopped, every company
having birthday people today gets exactly one group email — the unique
sendmail call whose `birthday_persons` argument is that company's whole group
— and its recipient list is the deduplicated set difference of the company's
employee emails minus the birthday persons' resolved emails, so no birthday
person's address appears among the recipients. -/
theorem birthday_group_email_unique (env : BirthdayEnv)
    (hflag : pyOrInt0 env.stop_birthday_reminders = 0)
    (company : String) (persons : List Emp)
    (hmem : (company, persons) ∈ group_by_company env.born_today) :
    (send_birthday_reminders env).filter (fun m => decide (m.persons = persons))
      = [company_group_email env company persons] ∧
    (company_group_email env company persons).recipients
      = Recipients.list (list_set_diff (env.get_all_employee_emails company)
          (persons.map env.get_employee_email)) ∧
    (list_set_diff (env.get_all_employee_emails company)
        (persons.map env.get_employee_email)).Nodup ∧
    (∀ x, x ∈ list_set_diff (env.get_all_employee_emails company)
          (persons.map env.get_employee_email)
      ↔ (x ∈ env.get_all_employee_emails company ∧
          x ∉ persons.map env.get_employee_email)) := by
  have hwf := group_by_company_wf env.born_today
  refine ⟨?_, rfl, (List.nodup_dedup _).filter _, fun x => by
    simp [list_set_diff, List.mem_filter, List.mem_dedup]⟩
  rw [send_birthday_reminders_run env hflag, filter_flatMap]
  refine flatMap_eq_singleton_of_unique _ _ (company, persons) _
    (List.count_eq_one_of_mem (List.Nodup.of_map Prod.fst hwf.1) hmem) ?_ ?_
  · show (birthday_company_emails env company persons).filter _ = _
    rw [birthday_company_emails,
      List.filter_cons_of_pos (by simp [company_group_email, send_birthday_reminder])]
    have hspec : ((if 1 < persons.length then
        persons.map (shared_birthday_email persons) else []).filter
          (fun m => decide (m.persons = persons))) = [] := by
      by_cases hl : 1 < persons.length
      · rw [if_pos hl, List.filter_eq_nil_iff]
        intro m hm
        obtain ⟨p, hp, rfl⟩ := List.mem_map.mp hm
        simp only [shared_birthday_email, send_birthday_reminder, decide_eq_true_eq]
        exact filter_ne_self hp
      · rw [if_neg hl]
        rfl
    rw [hspec]
  · intro q hq hne
    show (birthday_company_emails env q.1 q.2).filter _ = []
    rw [List.filter_eq_nil_iff]
    intro m hm
    rw [birthday_company_emails] at hm
    rcases List.mem_cons.mp hm with rfl | hm2
    · simp only [company_group_email, send_birthday_reminder, decide_eq_true_eq]
      intro hcontra
      exact hne (groups_snd_inj hwf q hq (company, persons) hmem hcontra)
    · by_cases hl : 1 < q.2.length
      · rw [if_pos hl] at hm2
        obtain ⟨p, hp, rfl⟩ := List.mem_map.mp hm2
        simp only [shared_birthday_email, send_birthday_reminder, decide_eq_true_eq]
        intro hcontra
        obtain ⟨r, hr⟩ := List.exists_mem_of_ne_nil _ (hwf.2.2 (company, persons) hmem)
        have hrq : r ∈ q.2 := List.mem_of_mem_filter (hcontra.symm ▸ hr)
        have h1 : r.company = company := hwf.2.1 (company, persons) hmem r hr
        have h2 : r.company = q.1 := hwf.2.1 q hq r hrq
        exact hne (groups_fst_inj hwf q hq (company, persons) hmem (by rw [← h2, h1]))
      · rw [if_neg hl] at hm2
        simp at hm2

/-- Witness for C3 at a concrete environment: Alice and Bob of company C1
share today's birthday; the unique group email's recipients are the company
addresses minus both birthday persons' resolved addresses. -/
theorem birthday_group_email_unique_witness :
    pyOrInt0 envC3.stop_birthday_reminders = 0 ∧
    ("C1", [alice, bob]) ∈ group_by_company envC3.born_today ∧
    (send_birthday_reminders envC3).filter
        (fun m => decide (m.persons = [alice, bob]))
      = [company_group_email envC3 "C1" [alice, bob]] ∧
    (∀ x, x ∈ list_set_diff (envC3.get_all_employee_emails "C1")
          ([alice, bob].map envC3.get_employee_email)
      ↔ (x ∈ envC3.get_all_employee_emails "C1" ∧
          x ∉ [alice, bob].map envC3.get_employee_email)) := by
  have h := birthday_group_email_unique envC3 rfl "C1" [alice, bob] (by decide)
  exact ⟨rfl, by decide, h.1, h.2.2.2⟩

/-- Claim C4: when more than one person of a company shares today's birthday,
each of them receives exactly one personalized email — the unique sendmail
call whose `birthday_persons` argument is the list of the *other*
co-celebrants — addressed to their user email, else personal email, else
company email; the person themselves is never among the named others. -/
theorem birthday_shared_special_unique (env : BirthdayEnv)
    (hflag : pyOrInt0 env.stop_birthday_reminders = 0)
    (company : String) (persons : List Emp)
    (hmem : (company, persons) ∈ group_by_company env.born_today)
    (hlen : 1 < persons.length) (hnd : persons.Nodup)
    (person : Emp) (hp : person ∈ persons) :
    (send_birthday_reminders env).filter
        (fun m => decide (m.persons = persons.filter (fun d => decide (d ≠ person))))
      = [shared_birthday_email persons person] ∧
    (shared_birthday_email persons person).recipients
      = Recipients.single (pyOr person.user_id
          (pyOr person.personal_email person.company_email)) ∧
    person ∉ persons.filter (fun d => decide (d ≠ person)) ∧
    (∀ q, q ∈ persons.filter (fun d => decide (d ≠ person))
      ↔ (q ∈ persons ∧ q ≠ person)) := by
  have hwf := group_by_company_wf env.born_today
  obtain ⟨w, hw, hwne⟩ := exists_other_of_nodup hnd hlen hp
  have hwo : w ∈ persons.filter (fun d => decide (d ≠ person)) :=
    List.mem_filter.mpr ⟨hw, by simp [hwne]⟩
  refine ⟨?_, rfl, by simp [List.mem_filter], fun q => by simp [List.mem_filter]⟩
  rw [send_birthday_reminders_run env hflag, filter_flatMap]
  refine flatMap_eq_singleton_of_unique _ _ (company, persons) _
    (List.count_eq_one_of_mem (List.Nodup.of_map Prod.fst hwf.1) hmem) ?_ ?_
  · show (birthday_company_emails env company persons).filter _ = _
    rw [birthday_company_emails, List.filter_cons_of_neg ?grp, if_pos hlen,
      List.filter_map]
    case grp =>
      simp only [company_group_email, send_birthday_reminder, decide_eq_true_eq]
      exact fun hcontra => filter_ne_self hp hcontra.symm
    rw [filter_eq_singleton_of_nodup persons _ person hnd hp ?ppos ?puniq]
    · rfl
    case ppos => simp [Function.comp, shared_birthday_email, send_birthday_reminder]
    case puniq =>
      intro x hx hfx
      simp only [Function.comp, shared_birthday_email, send_birthday_reminder,
        decide_eq_true_eq] at hfx
      by_contra hxp
      have hmemp : person ∈ persons.filter (fun d => decide (d ≠ x)) :=
        List.mem_filter.mpr ⟨hp, by
          simpa using fun he : person = x => hxp he.symm⟩
      rw [hfx] at hmemp
      have := (List.mem_filter.mp hmemp).2
      simp at this
  · intro q hq hne
    show (birthday_company_emails env q.1 q.2).filter _ = []
    rw [List.filter_eq_nil_iff]
    intro m hm
    rw [birthday_company_emails] at hm
    have hqcomp : q.2 = persons.filter (fun d => decide (d ≠ person)) → False := by
      intro hcontra
      have hwq : w ∈ q.2 := by rw [hcontra]; exact hwo
      have h1 : w.company = company := hwf.2.1 (company, persons) hmem w hw
      have h2 : w.company = q.1 := hwf.2.1 q hq w hwq
      exact hne (groups_fst_inj hwf q hq (company, persons) hmem (by rw [← h2, h1]))
    rcases List.mem_cons.mp hm with rfl | hm2
    · simp only [company_group_email, send_birthday_reminder, decide_eq_true_eq]
      exact hqcomp
    · by_cases hl : 1 < q.2.length
      · rw [if_pos hl] at hm2
        obtain ⟨p, hpq, rfl⟩ := List.mem_map.mp hm2
        simp only [shared_birthday_email, send_birthday_reminder, decide_eq_true_eq]
        intro hcontra
        have hwq2 : w ∈ q.2.filter (fun d => decide (d ≠ p)) := by
          rw [hcontra]; exact hwo
        have hwq : w ∈ q.2 := List.mem_of_mem_filter hwq2
        have h1 : w.company = company := hwf.2.1 (company, persons) hmem w hw
        have h2 : w.company = q.1 := hwf.2.1 q hq w hwq
        exact hne (groups_fst_inj hwf q hq (company, persons) hmem (by rw [← h2, h1]))
      · rw [if_neg hl] at hm2
        simp at hm2

/-- Witness for C4 at a concrete environment: Alice and Bob share the
birthday; Alice's personalized email names only Bob and goes to Alice's user
email (the first non-empty entry of her address chain). -/
theorem birthday_shared_special_unique_witness :
    1 < ([alice, bob] : List Emp).length ∧
    (send_birthday_reminders envC3).filter
        (fun m => decide (m.persons = [alice, bob].filter (fun d => decide (d ≠ alice))))
      = [shared_birthday_email [alice, bob] alice] ∧
    (shared_birthday_email [alice, bob] alice).recipients
      = Recipients.single (pyOr alice.user_id
          (pyOr alice.personal_email alice.company_email)) ∧
    alice ∉ [alice, bob].filter (fun d => decide (d ≠ alice)) := by
  have h := birthday_shared_special_unique envC3 rfl "C1" [alice, bob] (by decide)
    (by decide) (by decide) alice (by decide)
  exact ⟨by decide, h.1, h.2.1, h.2.2.1⟩

theorem group_by_company_unique_bucket (docs : List Emp) (r : Emp)
    (hr : ∃ p ∈ group_by_company docs, r ∈ p.2) :
    (group_by_company docs).countP (fun p => decide (r ∈ p.2)) = 1 := by
  have hwf := group_by_company_wf docs
  obtain ⟨p, hp, hrp⟩ := hr
  rw [List.countP_eq_length_filter,
    filter_eq_singleton_of_nodup _ _ p (List.Nodup.of_map Prod.fst hwf.1) hp
      (by simp [hrp]) ?_]
  · rfl
  · intro q hq hpr
    have hrq : r ∈ q.2 := by simpa using hpr
    have h1 : r.company = p.1 := hwf.2.1 p hp r hrp
    have h2 : r.company = q.1 := hwf.2.1 q hq r hrq
    exact groups_fst_inj hwf q hq p hp (by rw [← h2, h1])

/-- Claim C10: for event types "birthday" and "work_anniversary" the function
returns a grouping whose keys are distinct and in which every record sits
under exactly the key equal to its own company field — so each record occurs
in exactly one group — while any other event type returns None rather than an
empty mapping. -/
theorem event_grouping_spec (event_type : String) (rows : String → List Emp) :
    ((event_type = "birthday" ∨ event_type = "work_anniversary") →
      ∃ groups, get_employees_having_an_event_today event_type rows = some groups ∧
        (groups.map Prod.fst).Nodup ∧
        (∀ p ∈ groups, ∀ r ∈ p.2, r.company = p.1) ∧
        (∀ r : Emp, (∃ p ∈ groups, r ∈ p.2) →
          groups.countP (fun p => decide (r ∈ p.2)) = 1)) ∧
    (event_type ≠ "birthday" → event_type ≠ "work_anniversary" →
      get_employees_having_an_event_today event_type rows = none) := by
  constructor
  · rintro (h | h) <;> subst h
    · exact ⟨group_by_company (rows "date_of_birth"), rfl,
        (group_by_company_wf _).1, (group_by_company_wf _).2.1,
        fun r hr => group_by_company_unique_bucket _ r hr⟩
    · exact ⟨group_by_company (rows "date_of_joining"), rfl,
        (group_by_company_wf _).1, (group_by_company_wf _).2.1,
        fun r hr => group_by_company_unique_bucket _ r hr⟩
  · intro h1 h2
    simp [get_employees_having_an_event_today, h1, h2]

/-- Witness for C10: on concrete rows (Alice and Bob in C1, Carol in C2) the
birthday grouping satisfies all invariants, and an unknown event type yields
None. -/
theorem event_grouping_spec_witness :
    (∃ groups, get_employees_having_an_event_today "birthday" rowsW = some groups ∧
      (groups.map Prod.fst).Nodup ∧
      (∀ p ∈ groups, ∀ r ∈ p.2, r.company = p.1) ∧
      (∀ r : Emp, (∃ p ∈ groups, r ∈ p.2) →
        groups.countP (fun p => decide (r ∈ p.2)) = 1)) ∧
    get_employees_having_an_event_today "holiday" rowsW = none :=
  ⟨(event_grouping_spec "birthday" rowsW).1 (Or.inl rfl),
   (event_grouping_spec "holiday" rowsW).2 (by decide) (by decide)⟩

end EmployeeReminders
